import Mathlib

/-!
Verification development for the chess web app (`app.py`).

The file shallowly embeds, in Lean, the core of the application:

* a model of the external rules library (python-chess), which the spec calls
  the Position Oracle: board representation, legal-move generation,
  check/checkmate/stalemate/insufficient-material detection, UCI move parsing;
* `ChessGame._evaluate_position`, `_minimax`, `_minimax_move`,
  `get_best_move`, `make_move`, `get_engine_move`, `get_hint`,
  `_check_game_over` from `app.py`;
* the Flask route handlers for `/api/move/<id>` and `/api/hint/<id>`.

Scores: the source uses Python floats whose values are all integer multiples
of 0.5 (piece value 3.5, mobility bonus 0.5, the rest integers).  The model
represents scores exactly as `Int` in HALF-POINT units (each source value is
multiplied by 2): pawn 1 -> 2, bishop 3.5 -> 7, check bonus 500 -> 1000,
mate sentinel 10000 -> 20000, mobility 0.5 -> 1, and so on.  The map
x -> 2*x is a strictly monotone bijection onto the representable scores, so
all comparisons (alpha-beta, max/min, argmax) and all equalities are
preserved; float arithmetic on these values is exact, hence so is the
correspondence.
-/

set_option maxRecDepth 40000

namespace ChessBot

/-- Piece kinds, as in python-chess (PAWN .. KING). -/
inductive PieceType where
  | pawn | knight | bishop | rook | queen | king
deriving DecidableEq, Repr

/-- A piece: kind plus color.  `color = true` is White (chess.WHITE = True). -/
structure Piece where
  pt : PieceType
  color : Bool
deriving DecidableEq, Repr

/-- Board state, as held by a python-chess `Board`: 64 squares indexed by
`rank * 8 + file` (a1 = 0, h1 = 7, a8 = 56), side to move, castling rights,
en-passant target square, and the halfmove clock.  The model does not carry
the repetition history, so the fivefold-repetition draw of
`Board.is_game_over` is not modelled; no verified claim depends on it. -/
structure Board where
  squares : List (Option Piece)
  turn : Bool
  castleWK : Bool
  castleWQ : Bool
  castleBK : Bool
  castleBQ : Bool
  ep : Option Nat
  halfmove : Nat
deriving DecidableEq, Repr

/-- Model of `Board.piece_at`. -/
def pieceAt (b : Board) (sq : Nat) : Option Piece := b.squares.getD sq none

def fileOf (sq : Nat) : Int := (sq : Int) % 8

def rankOf (sq : Nat) : Int := (sq : Int) / 8

def sgn (x : Int) : Int := if 0 < x then 1 else if x < 0 then -1 else 0

def mkSq (f r : Int) : Nat := (r * 8 + f).toNat

abbrev onBoard (f r : Int) : Prop := 0 ≤ f ∧ f < 8 ∧ 0 ≤ r ∧ r < 8

/-- Squares strictly between two aligned squares (used for slider attacks). -/
def stepsBetween (a c : Nat) : List Nat :=
  let df := fileOf c - fileOf a
  let dr := rankOf c - rankOf a
  let n := max df.natAbs dr.natAbs
  (List.range (n - 1)).map (fun i =>
    mkSq (fileOf a + sgn df * ((i : Int) + 1)) (rankOf a + sgn dr * ((i : Int) + 1)))

def pathClear (b : Board) (a c : Nat) : Bool :=
  (stepsBetween a c).all (fun sq => decide (pieceAt b sq = none))

/-- The occupied squares with their pieces, in ascending square order (one
walk over the board; scanning squares 0..63 with `piece_at` is the same
enumeration). -/
def occupiedFrom : List (Option Piece) → Nat → List (Nat × Piece)
  | [], _ => []
  | none :: rest, i => occupiedFrom rest (i + 1)
  | some p :: rest, i => (i, p) :: occupiedFrom rest (i + 1)

def occupied (b : Board) : List (Nat × Piece) := occupiedFrom b.squares 0

/-- Does piece `p` sitting on `src` attack `dst`?  Mirrors python-chess
attack geometry (pins are irrelevant for attack queries). -/
def pieceAttacks (b : Board) (p : Piece) (src dst : Nat) : Bool :=
  let df := fileOf dst - fileOf src
  let dr := rankOf dst - rankOf src
  match p.pt with
  | .pawn => decide (df.natAbs = 1 ∧ dr = (if p.color then (1 : Int) else -1))
  | .knight => decide ((df.natAbs = 1 ∧ dr.natAbs = 2) ∨ (df.natAbs = 2 ∧ dr.natAbs = 1))
  | .king => decide (max df.natAbs dr.natAbs = 1)
  | .bishop => decide (df.natAbs = dr.natAbs ∧ df ≠ 0) && pathClear b src dst
  | .rook => decide ((df = 0 ∧ dr ≠ 0) ∨ (dr = 0 ∧ df ≠ 0)) && pathClear b src dst
  | .queen =>
      decide ((df.natAbs = dr.natAbs ∧ df ≠ 0) ∨ (df = 0 ∧ dr ≠ 0) ∨ (dr = 0 ∧ df ≠ 0))
        && pathClear b src dst

/-- Squares holding a piece of color `c` that attacks `dst`
(`Board.attackers(color, square)`). -/
def attackers (b : Board) (c : Bool) (dst : Nat) : List Nat :=
  ((occupied b).filter (fun sp => decide (sp.2.color = c) && pieceAttacks b sp.2 sp.1 dst)).map
    Prod.fst

def attackersCount (b : Board) (c : Bool) (dst : Nat) : Nat := (attackers b c dst).length

def isAttackedBy (b : Board) (c : Bool) (dst : Nat) : Bool := !(attackers b c dst).isEmpty

/-- Model of `Board.king(color)`: the king square of a color, if present. -/
def kingSq (b : Board) (c : Bool) : Option Nat :=
  ((occupied b).find? (fun sp => decide (sp.2 = ⟨.king, c⟩))).map Prod.fst

/-- Model of `Board.is_check()`. -/
def isCheck (b : Board) : Bool :=
  match kingSq b b.turn with
  | some k => isAttackedBy b (!b.turn) k
  | none => false

/-- A move: from-square, to-square, optional promotion piece
(python-chess `Move`; `from` is a Lean keyword, hence `src`/`dst`). -/
structure Move where
  src : Nat
  dst : Nat
  promo : Option PieceType
deriving DecidableEq, Repr

/-- Model of `Board.push` without the undo stack: the board after a move.  Handles
promotion, en-passant capture, castling rook relocation, castling-rights
and en-passant bookkeeping, and the halfmove clock. -/
def applyMove (b : Board) (m : Move) : Board :=
  match pieceAt b m.src with
  | none => { b with turn := !b.turn }
  | some p =>
    let isEp : Bool :=
      decide (p.pt = PieceType.pawn ∧ b.ep = some m.dst ∧ fileOf m.dst ≠ fileOf m.src ∧
        pieceAt b m.dst = none)
    let capSq : Nat := if isEp then (if p.color then m.dst - 8 else m.dst + 8) else m.dst
    let isCapture : Bool := (pieceAt b m.dst).isSome || isEp
    let moved : Piece := match m.promo with | some t => ⟨t, p.color⟩ | none => p
    let sqs1 := b.squares.set m.src none
    let sqs2 := if isEp then sqs1.set capSq none else sqs1
    let sqs3 := sqs2.set m.dst (some moved)
    let isCastle : Bool := decide (p.pt = PieceType.king ∧ (fileOf m.dst - fileOf m.src).natAbs = 2)
    let sqs4 :=
      if isCastle then
        if m.src < m.dst then (sqs3.set (m.src + 3) none).set (m.src + 1) (some ⟨.rook, p.color⟩)
        else (sqs3.set (m.src - 4) none).set (m.src - 1) (some ⟨.rook, p.color⟩)
      else sqs3
    { squares := sqs4
      turn := !b.turn
      castleWK := b.castleWK && !(decide (m.src = 4 ∨ m.src = 7 ∨ m.dst = 7))
      castleWQ := b.castleWQ && !(decide (m.src = 4 ∨ m.src = 0 ∨ m.dst = 0))
      castleBK := b.castleBK && !(decide (m.src = 60 ∨ m.src = 63 ∨ m.dst = 63))
      castleBQ := b.castleBQ && !(decide (m.src = 60 ∨ m.src = 56 ∨ m.dst = 56))
      ep := if decide (p.pt = PieceType.pawn ∧ (rankOf m.dst - rankOf m.src).natAbs = 2)
            then some ((m.src + m.dst) / 2) else none
      halfmove := if decide (p.pt = PieceType.pawn) || isCapture then 0 else b.halfmove + 1 }

def pawnMovesFrom (b : Board) (sq : Nat) (c : Bool) : List Move :=
  let f := fileOf sq
  let r := rankOf sq
  let dir : Int := if c then 1 else -1
  let promoRank : Int := if c then 7 else 0
  let startRank : Int := if c then 1 else 6
  let mks : Nat → List Move := fun dst =>
    if rankOf dst = promoRank then
      [⟨sq, dst, some .queen⟩, ⟨sq, dst, some .rook⟩, ⟨sq, dst, some .bishop⟩,
       ⟨sq, dst, some .knight⟩]
    else [⟨sq, dst, none⟩]
  let fwd1 :=
    if onBoard f (r + dir) ∧ pieceAt b (mkSq f (r + dir)) = none then mks (mkSq f (r + dir))
    else []
  let fwd2 :=
    if r = startRank ∧ pieceAt b (mkSq f (r + dir)) = none ∧
        pieceAt b (mkSq f (r + 2 * dir)) = none then
      [⟨sq, mkSq f (r + 2 * dir), none⟩]
    else []
  let caps := ([-1, 1] : List Int).foldr (fun df acc =>
    (if onBoard (f + df) (r + dir) then
      let dst := mkSq (f + df) (r + dir)
      match pieceAt b dst with
      | some q => if q.color = c then [] else mks dst
      | none => if b.ep = some dst then [⟨sq, dst, none⟩] else []
    else []) ++ acc) []
  fwd1 ++ fwd2 ++ caps

def stepMovesFrom (b : Board) (sq : Nat) (c : Bool) (offs : List (Int × Int)) : List Move :=
  offs.foldr (fun o acc =>
    (if onBoard (fileOf sq + o.1) (rankOf sq + o.2) then
      let dst := mkSq (fileOf sq + o.1) (rankOf sq + o.2)
      match pieceAt b dst with
      | some q => if q.color = c then [] else [(⟨sq, dst, none⟩ : Move)]
      | none => [⟨sq, dst, none⟩]
    else []) ++ acc) []

def raySquares (b : Board) (c : Bool) (f r df dr : Int) : Nat → List Nat
  | 0 => []
  | n+1 =>
    if onBoard (f + df) (r + dr) then
      let dst := mkSq (f + df) (r + dr)
      match pieceAt b dst with
      | none => dst :: raySquares b c (f + df) (r + dr) df dr n
      | some q => if q.color = c then [] else [dst]
    else []

def rayMovesFrom (b : Board) (sq : Nat) (c : Bool) (dirs : List (Int × Int)) : List Move :=
  dirs.foldr (fun o acc =>
    (raySquares b c (fileOf sq) (rankOf sq) o.1 o.2 7).map (fun dst => (⟨sq, dst, none⟩ : Move))
      ++ acc) []

def knightOffs : List (Int × Int) := [(1,2),(2,1),(2,-1),(1,-2),(-1,-2),(-2,-1),(-2,1),(-1,2)]

def kingOffs : List (Int × Int) := [(1,0),(1,1),(0,1),(-1,1),(-1,0),(-1,-1),(0,-1),(1,-1)]

def rookDirs : List (Int × Int) := [(1,0),(-1,0),(0,1),(0,-1)]

def bishopDirs : List (Int × Int) := [(1,1),(1,-1),(-1,1),(-1,-1)]

def queenDirs : List (Int × Int) := rookDirs ++ bishopDirs

def movesFrom (b : Board) (sq : Nat) (p : Piece) : List Move :=
  if p.color = b.turn then
    match p.pt with
    | .pawn => pawnMovesFrom b sq p.color
    | .knight => stepMovesFrom b sq p.color knightOffs
    | .king => stepMovesFrom b sq p.color kingOffs
    | .rook => rayMovesFrom b sq p.color rookDirs
    | .bishop => rayMovesFrom b sq p.color bishopDirs
    | .queen => rayMovesFrom b sq p.color queenDirs
  else []

/-- Pseudo-legal moves (all piece moves ignoring king safety, castling
apart), in ascending from-square order. -/
def pseudoMoves (b : Board) : List Move :=
  (occupied b).foldr (fun sp acc => movesFrom b sp.1 sp.2 ++ acc) []

/-- Would the mover's own king be attacked after the move? -/
def inCheckAfter (b : Board) (m : Move) : Bool :=
  let b2 := applyMove b m
  match kingSq b2 b.turn with
  | some k => isAttackedBy b2 (!b.turn) k
  | none => false

/-- Castling moves, with full legality (rights, empty path, king not in
check, path and destination squares not attacked), as python-chess generates
them inside `legal_moves` (UCI e1g1 / e1c1 / e8g8 / e8c8). -/
def castleMoves (b : Board) : List Move :=
  if b.turn then
    (if b.castleWK ∧ pieceAt b 4 = some ⟨.king, true⟩ ∧ pieceAt b 7 = some ⟨.rook, true⟩ ∧
        pieceAt b 5 = none ∧ pieceAt b 6 = none ∧
        isAttackedBy b false 4 = false ∧ isAttackedBy b false 5 = false ∧
        isAttackedBy b false 6 = false then
      [(⟨4, 6, none⟩ : Move)] else []) ++
    (if b.castleWQ ∧ pieceAt b 4 = some ⟨.king, true⟩ ∧ pieceAt b 0 = some ⟨.rook, true⟩ ∧
        pieceAt b 1 = none ∧ pieceAt b 2 = none ∧ pieceAt b 3 = none ∧
        isAttackedBy b false 4 = false ∧ isAttackedBy b false 3 = false ∧
        isAttackedBy b false 2 = false then
      [(⟨4, 2, none⟩ : Move)] else [])
  else
    (if b.castleBK ∧ pieceAt b 60 = some ⟨.king, false⟩ ∧ pieceAt b 63 = some ⟨.rook, false⟩ ∧
        pieceAt b 61 = none ∧ pieceAt b 62 = none ∧
        isAttackedBy b true 60 = false ∧ isAttackedBy b true 61 = false ∧
        isAttackedBy b true 62 = false then
      [(⟨60, 62, none⟩ : Move)] else []) ++
    (if b.castleBQ ∧ pieceAt b 60 = some ⟨.king, false⟩ ∧ pieceAt b 56 = some ⟨.rook, false⟩ ∧
        pieceAt b 57 = none ∧ pieceAt b 58 = none ∧ pieceAt b 59 = none ∧
        isAttackedBy b true 60 = false ∧ isAttackedBy b true 59 = false ∧
        isAttackedBy b true 58 = false then
      [(⟨60, 58, none⟩ : Move)] else [])

/-- Model of `Board.legal_moves`: pseudo-legal moves that leave the own king safe,
plus legal castling. -/
def legalMoves (b : Board) : List Move :=
  (pseudoMoves b).filter (fun m => !(inCheckAfter b m)) ++ castleMoves b

/-- Model of `Board.is_checkmate()`. -/
def isCheckmate (b : Board) : Bool := isCheck b && (legalMoves b).isEmpty

/-- Model of `Board.is_stalemate()`. -/
def isStalemate (b : Board) : Bool := !(isCheck b) && (legalMoves b).isEmpty

def colorHas (b : Board) (c : Bool) (t : PieceType) : Bool :=
  (occupied b).any (fun sp => decide (sp.2 = ⟨t, c⟩))

def colorCount (b : Board) (c : Bool) : Nat :=
  (occupied b).countP (fun sp => decide (sp.2.color = c))

def onlyKingsAndQueens (b : Board) (c : Bool) : Bool :=
  (occupied b).all (fun sp =>
    !(decide (sp.2.color = c)) || decide (sp.2.pt = PieceType.king) ||
      decide (sp.2.pt = PieceType.queen))

def bishopsOneSquareColor (b : Board) : Bool :=
  (occupied b).all (fun sp =>
    !(decide (sp.2.pt = PieceType.bishop)) || decide ((sp.1 % 8 + sp.1 / 8) % 2 = 0)) ||
  (occupied b).all (fun sp =>
    !(decide (sp.2.pt = PieceType.bishop)) || decide ((sp.1 % 8 + sp.1 / 8) % 2 = 1))

/-- Model of `Board.has_insufficient_material(color)`, following python-chess. -/
def hasInsufficientMaterial (b : Board) (c : Bool) : Bool :=
  if colorHas b c .pawn || colorHas b c .rook || colorHas b c .queen then false
  else if colorHas b c .knight then
    decide (colorCount b c ≤ 2) && onlyKingsAndQueens b (!c)
  else if colorHas b c .bishop then
    bishopsOneSquareColor b && !(colorHas b c .pawn) && !(colorHas b c .knight)
  else true

/-- Model of `Board.is_insufficient_material()`. -/
def isInsufficientMaterial (b : Board) : Bool :=
  hasInsufficientMaterial b true && hasInsufficientMaterial b false

/-- Model of `Board.is_seventyfive_moves()`. -/
def isSeventyfiveMoves (b : Board) : Bool :=
  decide (150 ≤ b.halfmove) && !(legalMoves b).isEmpty

/-- Model of `Board.is_game_over()` (fivefold repetition not modelled, see `Board`). -/
def isGameOver (b : Board) : Bool :=
  isCheckmate b || isStalemate b || isInsufficientMaterial b || isSeventyfiveMoves b

/-- The standard starting position. -/
def pieceRow (c : Bool) : List (Option Piece) :=
  [some ⟨.rook, c⟩, some ⟨.knight, c⟩, some ⟨.bishop, c⟩, some ⟨.queen, c⟩,
   some ⟨.king, c⟩, some ⟨.bishop, c⟩, some ⟨.knight, c⟩, some ⟨.rook, c⟩]

def pawnRow (c : Bool) : List (Option Piece) := List.replicate 8 (some ⟨.pawn, c⟩)

def emptyRow : List (Option Piece) := List.replicate 8 none

def startBoard : Board :=
  { squares := pieceRow true ++ pawnRow true ++ emptyRow ++ emptyRow ++ emptyRow ++ emptyRow ++
      pawnRow false ++ pieceRow false
    turn := true
    castleWK := true, castleWQ := true, castleBK := true, castleBQ := true
    ep := none, halfmove := 0 }

/-! ## Static evaluator (`ChessGame._evaluate_position`)

Scores are `Int` in half-point units: every constant below is the source's
float constant multiplied by 2 (see the file header). -/

/-- Model of `piece_values` of `_evaluate_position`, times 2 (king absent from the
dict, hence value 0). -/
def pieceVal : PieceType → Int
  | .pawn => 2
  | .knight => 6
  | .bishop => 7
  | .rook => 10
  | .queen => 18
  | .king => 0

def materialTerm (b : Board) : Int :=
  (occupied b).foldr (fun sp acc =>
    (if sp.2.color then pieceVal sp.2.pt else -(pieceVal sp.2.pt)) + acc) 0

/-- Check-threat bonus: +500 (here 1000) when the side to move is Black,
−500 when it is White. -/
def checkTerm (b : Board) : Int :=
  if isCheck b then (if b.turn then -1000 else 1000) else 0

/-- Pawn advancement: white pawn on rank index r contributes (r−1)*10,
black pawn subtracts (6−r)*10 (doubled here). -/
def pawnAdvTerm (b : Board) : Int :=
  (occupied b).foldr (fun sp acc =>
    (if sp.2.pt = PieceType.pawn then
      if sp.2.color then (rankOf sp.1 - 1) * 20 else -((6 - rankOf sp.1) * 20)
     else 0) + acc) 0

/-- King safety: −50 (here −100) per enemy attacker of the white king,
+50 per attacker of the black king.  The source calls `board.king(color)`
which returns None only in kingless positions (where the source would
raise); the model contributes 0 in that unreachable case. -/
def kingAttackCount (b : Board) (c : Bool) : Int :=
  match kingSq b c with
  | some k => (attackersCount b (!c) k : Nat)
  | none => 0

def kingSafetyTerm (b : Board) : Int :=
  -(kingAttackCount b true * 100) + kingAttackCount b false * 100

/-- Piece activity: 0.5 (here 1) per legal move from each occupied square,
signed by the piece's color.  `board.legal_moves` only enumerates moves of
the side to move, so only that side's pieces can contribute; the source
re-creates the generator for every square over an unchanged board, which is
the same as computing the move list once. -/
def mobilityTerm (b : Board) : Int :=
  let lm := legalMoves b
  (occupied b).foldr (fun sp acc =>
    (let n : Int := (lm.countP (fun m => decide (m.src = sp.1)) : Nat)
     if sp.2.color then n else -n) + acc) 0

/-- Center control: ±20 (here ±40) per piece on d3..e6 center squares
(indices of chess.D4,E4,D5,E5,D3,E3,D6,E6). -/
def centerTerm (b : Board) : Int :=
  ([27, 28, 35, 36, 19, 20, 43, 44] : List Nat).foldr (fun sq acc =>
    (match pieceAt b sq with
     | some p => if p.color then (40 : Int) else -40
     | none => 0) + acc) 0

/-- Model of `ChessGame._evaluate_position`: checkmate returns +10000 (here 20000)
when White is to move, −10000 otherwise; stalemate returns 0; otherwise the
sum of the heuristic terms. -/
def evaluatePosition (b : Board) : Int :=
  if isCheckmate b then (if b.turn then 20000 else -20000)
  else if isStalemate b then 0
  else materialTerm b + checkTerm b + pawnAdvTerm b + kingSafetyTerm b +
    mobilityTerm b + centerTerm b

/-! ## Search (`ChessGame._minimax`, `ChessGame._minimax_move`)

The Python board is mutated in place by `push`/`pop`; `BState` models the
board together with its undo stack, and every function that the source lets
mutate the board threads a `BState` through and returns the final one. -/

/-- A python-chess `Board` as a mutable object: current position plus the
undo stack that `push` grows and `pop` consumes. -/
structure BState where
  cur : Board
  hist : List Board
deriving DecidableEq, Repr

/-- Model of `Board.push`. -/
def BState.push (bs : BState) (m : Move) : BState :=
  ⟨applyMove bs.cur m, bs.cur :: bs.hist⟩

/-- Model of `Board.pop`.  Popping an empty stack raises in Python; it cannot happen
in the embedded code (pushes and pops are balanced), and the model returns
the state unchanged there. -/
def BState.pop (bs : BState) : BState :=
  match bs.hist with
  | [] => bs
  | h :: t => ⟨h, t⟩

/-- Scores as the source's floats: finite values plus float('inf') and
float('-inf') used to initialize alpha/beta and the running best. -/
inductive XScore where
  | negInf : XScore
  | fin : Int → XScore
  | posInf : XScore
deriving DecidableEq, Repr

def XScore.neg : XScore → XScore
  | negInf => posInf
  | fin q => fin (-q)
  | posInf => negInf

/-- Float `<=` on scores (no NaNs arise). -/
def XScore.ble : XScore → XScore → Bool
  | negInf, _ => true
  | fin _, negInf => false
  | fin a, fin c => decide (a ≤ c)
  | fin _, posInf => true
  | posInf, posInf => true
  | posInf, _ => false

def XScore.xmax (a c : XScore) : XScore := if XScore.ble a c then c else a

def XScore.xmin (a c : XScore) : XScore := if XScore.ble a c then a else c

/-- The maximizing loop of `_minimax` (`for move in legal_moves: push;
recurse with False; pop; update max_eval and alpha; break when
beta <= alpha`).  `f` is the recursion at depth−1. -/
def abMax (f : XScore → XScore → Bool → BState → XScore × BState) :
    List Move → XScore → XScore → XScore → BState → XScore × BState
  | [], best, _, _, bs => (best, bs)
  | m :: rest, best, a, c, bs =>
    let r := f a c false (bs.push m)
    let ev := r.1
    let bs3 := r.2.pop
    let best1 := XScore.xmax best ev
    let a1 := XScore.xmax a ev
    if XScore.ble c a1 then (best1, bs3) else abMax f rest best1 a1 c bs3

/-- The minimizing loop of `_minimax` (symmetric, updates beta). -/
def abMin (f : XScore → XScore → Bool → BState → XScore × BState) :
    List Move → XScore → XScore → XScore → BState → XScore × BState
  | [], best, _, _, bs => (best, bs)
  | m :: rest, best, a, c, bs =>
    let r := f a c true (bs.push m)
    let ev := r.1
    let bs3 := r.2.pop
    let best1 := XScore.xmin best ev
    let c1 := XScore.xmin c ev
    if XScore.ble c1 a then (best1, bs3) else abMin f rest best1 a c1 bs3

/-- One unfolding of `_minimax` given the recursion for smaller depth. -/
def minimaxStep (f : XScore → XScore → Bool → BState → XScore × BState)
    (a c : XScore) (mx : Bool) (bs : BState) : XScore × BState :=
  if isGameOver bs.cur then (XScore.fin (evaluatePosition bs.cur), bs)
  else if mx then abMax f (legalMoves bs.cur) XScore.negInf a c bs
  else abMin f (legalMoves bs.cur) XScore.posInf a c bs

/-- Model of `ChessGame._minimax(depth, alpha, beta, is_maximizing)`: at depth 0 or
on a terminal position return the static evaluation, otherwise run the
maximizing or minimizing alpha-beta loop.  The source is only ever called
with depth ≥ 0 (Python int); `Nat` models that range. -/
def minimax : Nat → XScore → XScore → Bool → BState → XScore × BState
  | 0 => fun _ _ _ bs => (XScore.fin (evaluatePosition bs.cur), bs)
  | d + 1 => minimaxStep (minimax d)

/-- The root loop of `_minimax_move`: push each legal move, score it as
`-_minimax(depth-1, -inf, inf, not board.turn)` (the flag is read after the
push, so it is the mover's color), pop, and keep the first strictly better
move. -/
def rootLoop (f : XScore → XScore → Bool → BState → XScore × BState) :
    List Move → Option Move → XScore → BState → Option Move × BState
  | [], best, _, bs => (best, bs)
  | m :: rest, best, bestScore, bs =>
    let bs1 := bs.push m
    let r := f XScore.negInf XScore.posInf (!bs1.cur.turn) bs1
    let score := XScore.neg r.1
    let bs3 := r.2.pop
    if XScore.ble score bestScore then rootLoop f rest best bestScore bs3
    else rootLoop f rest (some m) score bs3

/-- Model of `ChessGame._minimax_move(depth)` (returning the chosen `Move`; the
source returns its UCI string, see `minimaxMoveUci`).  The source calls
`_minimax(depth - 1, ...)`; with `Nat` subtraction depth 0 behaves like
depth 1, and the source is only ever invoked with depth ≥ 1. -/
def minimaxMove (bs : BState) (d : Nat) : Option Move × BState :=
  rootLoop (minimax (d - 1)) (legalMoves bs.cur) none XScore.negInf bs

def squareName (sq : Nat) : String :=
  String.mk [Char.ofNat (97 + sq % 8), Char.ofNat (49 + sq / 8)]

def promoChar : PieceType → String
  | .queen => "q"
  | .rook => "r"
  | .bishop => "b"
  | .knight => "n"
  | .pawn => "p"
  | .king => "k"

/-- Model of `Move.uci()`. -/
def Move.uci (m : Move) : String :=
  squareName m.src ++ squareName m.dst ++
    (match m.promo with | some t => promoChar t | none => "")

def minimaxMoveUci (bs : BState) (d : Nat) : Option String × BState :=
  let r := minimaxMove bs d
  (r.1.map Move.uci, r.2)

/-- Model of `ChessGame.get_best_move`: with no Stockfish binary available (the
fallback core this spec covers), it is `_minimax_move(depth=2)`. -/
def getBestMove (bs : BState) : Option String × BState :=
  minimaxMoveUci bs 2

/-! ## UCI parsing (`chess.Move.from_uci`) -/

def parseSquare (cf cr : Char) : Option Nat :=
  if 97 ≤ cf.toNat ∧ cf.toNat ≤ 104 ∧ 49 ≤ cr.toNat ∧ cr.toNat ≤ 56 then
    some ((cr.toNat - 49) * 8 + (cf.toNat - 97))
  else none

def promoOfChar (ch : Char) : Option PieceType :=
  if ch = 'q' then some .queen
  else if ch = 'r' then some .rook
  else if ch = 'b' then some .bishop
  else if ch = 'n' then some .knight
  else none

/-- Model of `chess.Move.from_uci`, as `Option` (the source wraps the raising call in
try/except).  The null move "0000" parses in python-chess but is never in
`legal_moves`, and both sides reject it; the model rejects it at parse time,
which gives `make_move` the same result. -/
def Move.fromUci (s : String) : Option Move :=
  match s.data with
  | [c1, c2, c3, c4] =>
    match parseSquare c1 c2, parseSquare c3 c4 with
    | some src, some dst => some ⟨src, dst, none⟩
    | _, _ => none
  | [c1, c2, c3, c4, c5] =>
    match parseSquare c1 c2, parseSquare c3 c4, promoOfChar c5 with
    | some src, some dst, some t => some ⟨src, dst, some t⟩
    | _, _, _ => none
  | _ => none

/-! ## Game session (`ChessGame`) and routes -/

/-- The `ChessGame` fields the core manipulates (`game_id`, `difficulty`,
`time_limit` are inert; `stockfish` is None in the fallback configuration
this spec covers). -/
structure Session where
  bstate : BState
  moveCount : Nat
  hintsUsed : Nat
  maxHints : Nat
  gameOver : Bool
  winner : Option String
  reason : Option String
deriving DecidableEq, Repr

/-- Model of `ChessGame.__init__`. -/
def mkSession : Session :=
  { bstate := ⟨startBoard, []⟩
    moveCount := 0
    hintsUsed := 0
    maxHints := 5
    gameOver := false
    winner := none
    reason := none }

/-- Model of `ChessGame._check_game_over`. -/
def checkGameOver (s : Session) : Session :=
  if isGameOver s.bstate.cur then
    if isCheckmate s.bstate.cur then
      { s with gameOver := true
               winner := some (if s.bstate.cur.turn then "Black" else "White")
               reason := some "Checkmate" }
    else if isStalemate s.bstate.cur then
      { s with gameOver := true, winner := some "Draw", reason := some "Stalemate" }
    else if isInsufficientMaterial s.bstate.cur then
      { s with gameOver := true, winner := some "Draw", reason := some "Insufficient material" }
    else
      { s with gameOver := true, winner := some "Draw", reason := some "Game ended" }
  else s

/-- Model of `ChessGame.make_move(move_uci)`: parse, check membership in
`legal_moves`, push, bump `move_count`, re-check termination; `False` with
no state change on parse failure or illegality. -/
def makeMove (s : Session) (uci : String) : Session × Bool :=
  match Move.fromUci uci with
  | none => (s, false)
  | some m =>
    if m ∈ legalMoves s.bstate.cur then
      (checkGameOver { s with bstate := s.bstate.push m, moveCount := s.moveCount + 1 }, true)
    else (s, false)

/-- Model of `ChessGame.get_hint`: reject only when the budget is exhausted;
otherwise increment `hints_used` and return `get_best_move()` (which may be
None when there is no legal move). -/
def getHint (s : Session) : Session × Option String :=
  if s.maxHints ≤ s.hintsUsed then (s, none)
  else
    let s1 := { s with hintsUsed := s.hintsUsed + 1 }
    let r := getBestMove s1.bstate
    ({ s1 with bstate := r.2 }, r.1)

/-- Model of `ChessGame.get_engine_move`: compute the best move and play it. -/
def getEngineMove (s : Session) : Option String × Session :=
  let r := getBestMove s.bstate
  let s1 := { s with bstate := r.2 }
  match r.1 with
  | none => (none, s1)
  | some u =>
    let mm := makeMove s1 u
    if mm.2 then (some u, mm.1) else (none, mm.1)

/-- Outcome of the `/api/move/<id>` handler, paired with the session as the
global `games` dict holds it after the request. -/
inductive ApiResult where
  | ok : Session → ApiResult
  | err : String → ApiResult
deriving DecidableEq, Repr

/-- The `make_move` route: "auto" asks for an engine move (rejected when
`game_over`); any other string is a player move, rejected with
"Invalid move" when empty or when `ChessGame.make_move` returns False.
Note the route checks `game_over` only on the "auto" path. -/
def routeMakeMove (s : Session) (uci : String) : ApiResult × Session :=
  if uci = "auto" then
    if s.gameOver then (.err "Game is over", s)
    else
      let r := getEngineMove s
      match r.1 with
      | none => (.err "Could not generate move", r.2)
      | some _ => (.ok r.2, r.2)
  else if uci = "" then (.err "Invalid move", s)
  else
    let r := makeMove s uci
    if r.2 then (.ok r.1, r.1) else (.err "Invalid move", r.1)

/-- Outcome of the `/api/hint/<id>` handler: success carries the hint and
the counters; failure models the "No hints remaining. Used X/Y" error with
X = `game.hints_used` and Y = `game.max_hints` as read after the
`get_hint()` call. -/
inductive HintResult where
  | okHint : String → Nat → Nat → HintResult
  | errHint : Nat → Nat → HintResult
deriving DecidableEq, Repr

/-- The `get_hint` route. -/
def routeGetHint (s : Session) : HintResult × Session :=
  let r := getHint s
  match r.2 with
  | none => (.errHint r.1.hintsUsed r.1.maxHints, r.1)
  | some h => (.okHint h r.1.hintsUsed r.1.maxHints, r.1)

/-! ## Concrete positions used by the theorems -/

def emptySquares : List (Option Piece) := List.replicate 64 none

def placePieces (ps : List (Nat × Piece)) : List (Option Piece) :=
  ps.foldl (fun acc pr => acc.set pr.1 (some pr.2)) emptySquares

/-- Fool's mate: 1.f3 e5 2.g4 Qh4#, played through `make_move` from a fresh
session. -/
def fm1 : Session := (makeMove mkSession "f2f3").1

def fm2 : Session := (makeMove fm1 "e7e5").1

def fm3 : Session := (makeMove fm2 "g2g4").1

def fmFinal : Session := (makeMove fm3 "d8h4").1

/-- King versus king: a reachable insufficient-material draw that still has
legal moves (White Ke1, Black Ke8, White to move). -/
def kkBoard : Board :=
  { squares := placePieces [(4, ⟨.king, true⟩), (60, ⟨.king, false⟩)]
    turn := true
    castleWK := false, castleWQ := false, castleBK := false, castleBQ := false
    ep := none, halfmove := 10 }

/-- A session whose game ended by insufficient material (as
`_check_game_over` records it), with the `kkBoard` position. -/
def kkSession : Session :=
  { bstate := ⟨kkBoard, []⟩
    moveCount := 30
    hintsUsed := 0
    maxHints := 5
    gameOver := true
    winner := some "Draw"
    reason := some "Insufficient material" }

/-- White Ra1 and Kh1 versus Black Na8 and Kh8, White to move: Rxa8 wins
the knight with check, every alternative leaves material level. -/
def c3Board : Board :=
  { squares := placePieces
      [(0, ⟨.rook, true⟩), (7, ⟨.king, true⟩), (56, ⟨.knight, false⟩), (63, ⟨.king, false⟩)]
    turn := true
    castleWK := false, castleWQ := false, castleBK := false, castleBQ := false
    ep := none, halfmove := 0 }

def c3State : BState := ⟨c3Board, []⟩

/-- A session at the hint cap. -/
def cappedSession : Session := { mkSession with hintsUsed := 5 }

/-! Explicit forms of the positions along the fool's-mate game, proved equal
to the sessions produced by `makeMove`; later theorems rewrite with these
equalities so the game need not be replayed inside every proof. -/

def fm1Board : Board :=
  { startBoard with
    squares := (startBoard.squares.set 13 none).set 21 (some ⟨.pawn, true⟩)
    turn := false }

def fm2Board : Board :=
  { fm1Board with
    squares := (fm1Board.squares.set 52 none).set 36 (some ⟨.pawn, false⟩)
    turn := true
    ep := some 44 }

def fm3Board : Board :=
  { fm2Board with
    squares := (fm2Board.squares.set 14 none).set 30 (some ⟨.pawn, true⟩)
    turn := false
    ep := some 22 }

def fmBoard : Board :=
  { fm3Board with
    squares := (fm3Board.squares.set 59 none).set 31 (some ⟨.queen, false⟩)
    turn := true
    ep := none
    halfmove := 1 }

def fm1Lit : Session := { mkSession with bstate := ⟨fm1Board, [startBoard]⟩, moveCount := 1 }

def fm2Lit : Session :=
  { mkSession with bstate := ⟨fm2Board, [fm1Board, startBoard]⟩, moveCount := 2 }

def fm3Lit : Session :=
  { mkSession with bstate := ⟨fm3Board, [fm2Board, fm1Board, startBoard]⟩, moveCount := 3 }

def fmFinalLit : Session :=
  { mkSession with
    bstate := ⟨fmBoard, [fm3Board, fm2Board, fm1Board, startBoard]⟩
    moveCount := 4
    gameOver := true
    winner := some "Black"
    reason := some "Checkmate" }

/-- A move string fails `make_move` when it does not parse as UCI or parses
to a move outside the current legal-move set. -/
def invalidFor (s : Session) (u : String) : Bool :=
  match Move.fromUci u with
  | none => true
  | some m => decide (m ∉ legalMoves s.bstate.cur)

theorem fm1_eq : fm1 = fm1Lit := by decide

theorem fm2_eq : fm2 = fm2Lit := by unfold fm2; rw [fm1_eq]; decide

theorem fm3_eq : fm3 = fm3Lit := by unfold fm3; rw [fm2_eq]; decide

theorem fmFinal_eq : fmFinal = fmFinalLit := by unfold fmFinal; rw [fm3_eq]; decide

/-! ## Helper lemmas: the search restores the board it mutates -/

theorem pop_push (bs : BState) (m : Move) : (bs.push m).pop = bs := rfl

theorem abMax_state (f : XScore → XScore → Bool → BState → XScore × BState)
    (hf : ∀ a c mx bs, (f a c mx bs).2 = bs) :
    ∀ (l : List Move) (best a c : XScore) (bs : BState), (abMax f l best a c bs).2 = bs := by
  intro l
  induction l with
  | nil => intro best a c bs; rfl
  | cons m rest ih =>
    intro best a c bs
    simp only [abMax, hf, pop_push]
    split
    · rfl
    · exact ih ..

theorem abMin_state (f : XScore → XScore → Bool → BState → XScore × BState)
    (hf : ∀ a c mx bs, (f a c mx bs).2 = bs) :
    ∀ (l : List Move) (best a c : XScore) (bs : BState), (abMin f l best a c bs).2 = bs := by
  intro l
  induction l with
  | nil => intro best a c bs; rfl
  | cons m rest ih =>
    intro best a c bs
    simp only [abMin, hf, pop_push]
    split
    · rfl
    · exact ih ..

theorem minimax_state :
    ∀ (d : Nat) (a c : XScore) (mx : Bool) (bs : BState), (minimax d a c mx bs).2 = bs := by
  intro d
  induction d with
  | zero => intro a c mx bs; rfl
  | succ d ih =>
    intro a c mx bs
    simp only [minimax, minimaxStep]
    split
    · rfl
    · split
      · exact abMax_state _ ih _ _ _ _ _
      · exact abMin_state _ ih _ _ _ _ _

theorem rootLoop_state (f : XScore → XScore → Bool → BState → XScore × BState)
    (hf : ∀ a c mx bs, (f a c mx bs).2 = bs) :
    ∀ (l : List Move) (best : Option Move) (sc : XScore) (bs : BState),
      (rootLoop f l best sc bs).2 = bs := by
  intro l
  induction l with
  | nil => intro best sc bs; rfl
  | cons m rest ih =>
    intro best sc bs
    simp only [rootLoop, hf, pop_push]
    split
    · exact ih ..
    · exact ih ..

theorem minimaxMove_state (bs : BState) (d : Nat) : (minimaxMove bs d).2 = bs :=
  rootLoop_state (minimax (d - 1)) (fun a c mx bs2 => minimax_state (d - 1) a c mx bs2) _ _ _ _

theorem minimaxMove_nil (bs : BState) (d : Nat) (h : legalMoves bs.cur = []) :
    minimaxMove bs d = (none, bs) := by
  unfold minimaxMove
  rw [h]
  rfl

/-- Unfolding `get_hint` when the budget is not exhausted: the counter is
incremented, the board is searched (and restored), and the suggested move is
whatever the depth-2 search returns. -/
theorem getHint_budget (s : Session) (h : s.hintsUsed < s.maxHints) :
    getHint s = ({ s with hintsUsed := s.hintsUsed + 1 },
      ((minimaxMove s.bstate 2).1).map Move.uci) := by
  unfold getHint
  rw [if_neg (by omega)]
  unfold getBestMove minimaxMoveUci
  simp only [minimaxMove_state]

theorem checkGameOver_hintsUsed (t : Session) : (checkGameOver t).hintsUsed = t.hintsUsed := by
  unfold checkGameOver
  repeat' split
  all_goals rfl

theorem checkGameOver_spec (t : Session) (hg : isGameOver t.bstate.cur = true) :
    (checkGameOver t).gameOver = true ∧
    (isCheckmate t.bstate.cur = true →
      (checkGameOver t).winner = some (if t.bstate.cur.turn then "Black" else "White") ∧
      (checkGameOver t).reason = some "Checkmate") ∧
    (isCheckmate t.bstate.cur = false → isStalemate t.bstate.cur = true →
      (checkGameOver t).winner = some "Draw" ∧ (checkGameOver t).reason = some "Stalemate") ∧
    (isCheckmate t.bstate.cur = false → isStalemate t.bstate.cur = false →
      isInsufficientMaterial t.bstate.cur = true →
      (checkGameOver t).winner = some "Draw" ∧
      (checkGameOver t).reason = some "Insufficient material") ∧
    (isCheckmate t.bstate.cur = false → isStalemate t.bstate.cur = false →
      isInsufficientMaterial t.bstate.cur = false →
      (checkGameOver t).winner = some "Draw" ∧ (checkGameOver t).reason = some "Game ended") := by
  refine ⟨?_, ?_, ?_, ?_, ?_⟩
  · simp only [checkGameOver, hg]
    repeat' split
    all_goals simp_all
  · intro hc
    simp [checkGameOver, hg, hc]
  · intro hc hs
    simp [checkGameOver, hg, hc, hs]
  · intro hc hs hi
    simp [checkGameOver, hg, hc, hs, hi]
  · intro hc hs hi
    simp [checkGameOver, hg, hc, hs, hi]

/-! ## The claims -/

/-- C1: the spec's invariant says that once a session's terminal flag is
set, every `apply_move` (any move string) and every `request_engine_move`
is rejected and leaves Position, move_count, winner and reason unchanged.
The code violates the `apply_move` half: on `kkSession` — game over by
insufficient material, a terminal reason under which legal king moves still
exist — the "auto" (engine move) request is rejected as the claim says, but
the player move "e1e2" passes the only guard `make_move` has (legality),
mutating the Position and incrementing `move_count` from 30 to 31. -/
theorem terminalSessionAcceptsPlayerMove :
    kkSession.gameOver = true ∧
    isInsufficientMaterial kkSession.bstate.cur = true ∧
    isGameOver kkSession.bstate.cur = true ∧
    routeMakeMove kkSession "auto" = (ApiResult.err "Game is over", kkSession) ∧
    (makeMove kkSession "e1e2").2 = true ∧
    (makeMove kkSession "e1e2").1.moveCount = 31 ∧
    (makeMove kkSession "e1e2").1.bstate.cur ≠ kkSession.bstate.cur ∧
    routeMakeMove kkSession "e1e2" =
      (ApiResult.ok (makeMove kkSession "e1e2").1, (makeMove kkSession "e1e2").1) := by
  decide

/-- C2: the claim (and the spec) say `evaluate` on a checkmate position
returns the mate sentinel signed for the side that delivered mate — in
particular the NEGATIVE sentinel when White is to move and checkmated.  In
the fool's-mate position (after 1.f3 e5 2.g4 Qh4#) White is to move and
checkmated, yet `_evaluate_position` returns +10000 (+20000 half-points):
the sign favors the checkmated side, contradicting both the spec and the
white-positive convention of every other term of the same function. -/
theorem checkmateEvalSignFavorsLoser :
    fmFinal.bstate.cur.turn = true ∧
    isCheckmate fmFinal.bstate.cur = true ∧
    evaluatePosition fmFinal.bstate.cur = 20000 := by
  rw [fmFinal_eq]
  decide

/-- C3: the claim says `best_move(p, depth)` returns a legal move that
maximizes the depth-limited minimax value for the side to move.  On
`c3Board` (White Ra1 Kh1 vs Black Na8 Kh8) at depth 1 the depth-limited
value of a move for White is the static evaluation after it, and the
capture a1a8 (Rxa8+, winning the knight with check) is strictly better
than every quiet move; yet `_minimax_move` returns a1b1, a move whose
resulting evaluation is strictly lower — the root loop maximizes the
NEGATION of the child evaluation, so for White it minimizes White's own
evaluation. -/
theorem minimaxMoveRejectsWinningCapture :
    isGameOver c3Board = false ∧
    (⟨0, 56, none⟩ : Move) ∈ legalMoves c3Board ∧
    (minimaxMove c3State 1).1 = some ⟨0, 1, none⟩ ∧
    evaluatePosition (applyMove c3Board ⟨0, 1, none⟩) <
      evaluatePosition (applyMove c3Board ⟨0, 56, none⟩) ∧
    ((legalMoves c3Board).all (fun m =>
      decide (evaluatePosition (applyMove c3Board ⟨0, 1, none⟩) ≤
        evaluatePosition (applyMove c3Board m)))) = true ∧
    ((legalMoves c3Board).all (fun m =>
      decide (evaluatePosition (applyMove c3Board m) ≤
        evaluatePosition (applyMove c3Board ⟨0, 56, none⟩)))) = true := by
  decide

/-- C4 (counterexample): the claim says `evaluate` on the standard starting
position returns exactly 0.  It returns 20 half-points (10.0 in the
source's floats). -/
theorem startEvalNotZero : ¬ evaluatePosition startBoard = 0 := by decide

/-- C4 (amended): `evaluate` on the standard starting position returns 10
(20 half-points): material, check bonus, pawn advancement, king safety and
center control all cancel by symmetry, but the mobility term counts legal
moves of the side to move only — 20 White moves at 0.5 each — so Black's
pieces contribute nothing and the total is +10, not 0. -/
theorem startEvalMobilityOnly :
    materialTerm startBoard = 0 ∧
    checkTerm startBoard = 0 ∧
    pawnAdvTerm startBoard = 0 ∧
    kingSafetyTerm startBoard = 0 ∧
    centerTerm startBoard = 0 ∧
    (legalMoves startBoard).length = 20 ∧
    mobilityTerm startBoard = 20 ∧
    evaluatePosition startBoard = 20 := by
  decide

/-- C5 (counterexample): the claim says `request_hint` on a Terminal
session is rejected leaving the session unchanged, with `hints_used` not
incremented.  On the terminal fool's-mate session with `hints_used = 0`,
`get_hint` increments the counter to 1: the session is mutated. -/
theorem hintMutatesTerminalSession :
    fmFinal.gameOver = true ∧
    fmFinal.hintsUsed = 0 ∧
    (getHint fmFinal).1.hintsUsed = 1 := by
  rw [fmFinal_eq]
  decide

/-- C5 (amended): `request_hint` is rejected up front only when
`hints_used ≥ max_hints`; the Terminal state is not checked.  On any
session with remaining budget — terminal or not — `hints_used` is
incremented by 1, and no move suggestion comes back when the position has
no legal moves (checkmate or stalemate). -/
theorem hintNotRejectedWhenTerminal (s : Session) (hT : s.gameOver = true)
    (hb : s.hintsUsed < s.maxHints) :
    (getHint s).1.hintsUsed = s.hintsUsed + 1 ∧
    (legalMoves s.bstate.cur = [] → (getHint s).2 = none) := by
  rw [getHint_budget s hb]
  refine ⟨rfl, ?_⟩
  intro h
  rw [minimaxMove_nil s.bstate 2 h]
  rfl

/-- C5 (witness): the amended statement at the terminal fool's-mate
session. -/
theorem hintNotRejectedWhenTerminal_witness :
    (getHint fmFinal).1.hintsUsed = fmFinal.hintsUsed + 1 ∧
    (getHint fmFinal).2 = none := by
  have h := hintNotRejectedWhenTerminal fmFinal (by rw [fmFinal_eq]; decide)
    (by rw [fmFinal_eq]; decide)
  exact ⟨h.1, h.2 (by rw [fmFinal_eq]; decide)⟩

/-- C6: `hints_used` never exceeds `max_hints` (5 from `__init__`): a
fresh session starts at 0/5, `get_hint` preserves the bound (incrementing
only strictly below the cap), `make_move` never touches the counter, and at
the cap `get_hint` is rejected with no state change while the route reports
the failure with the current usage counts — a rejection, not a clamp. -/
theorem hintCapRejectsAtMax (s : Session) (u : String) :
    mkSession.hintsUsed = 0 ∧ mkSession.maxHints = 5 ∧
    (s.hintsUsed ≤ s.maxHints → (getHint s).1.hintsUsed ≤ s.maxHints) ∧
    (makeMove s u).1.hintsUsed = s.hintsUsed ∧
    (s.hintsUsed = s.maxHints →
      getHint s = (s, none) ∧
      routeGetHint s = (HintResult.errHint s.hintsUsed s.maxHints, s)) := by
  refine ⟨rfl, rfl, ?_, ?_, ?_⟩
  · intro hle
    by_cases hc : s.maxHints ≤ s.hintsUsed
    · unfold getHint
      rw [if_pos hc]
      exact hle
    · rw [getHint_budget s (by omega)]
      show s.hintsUsed + 1 ≤ s.maxHints
      omega
  · unfold makeMove
    split
    · rfl
    · split
      · exact checkGameOver_hintsUsed _
      · rfl
  · intro hcap
    have hg : getHint s = (s, none) := by
      unfold getHint
      rw [if_pos (le_of_eq hcap.symm)]
    refine ⟨hg, ?_⟩
    unfold routeGetHint
    rw [hg]

/-- C6 (witness): at a session sitting at the cap (5 of 5 used), the 6th
hint request is rejected, the route reports 5/5, and a move leaves the
counter at 5. -/
theorem hintCapRejectsAtMax_witness :
    getHint cappedSession = (cappedSession, none) ∧
    routeGetHint cappedSession = (HintResult.errHint 5 5, cappedSession) ∧
    (makeMove cappedSession "e2e4").1.hintsUsed = 5 := by
  obtain ⟨-, -, -, hmv, hcap⟩ := hintCapRejectsAtMax cappedSession "e2e4"
  obtain ⟨h1, h2⟩ := hcap (by decide)
  exact ⟨h1, h2, hmv⟩

/-- C7: a move string that does not parse as UCI, or parses to a move
outside the Oracle's legal-move set for the current Position, makes
`make_move` return False with the session unchanged, and makes the route
answer "Invalid move" with the stored session unchanged (no exception
escapes: the embedding is total and the source catches the parse
exception).  The route's reserved token "auto" selects the engine-move
path instead of `apply_move`, hence the side hypothesis. -/
theorem invalidMoveRejected (s : Session) (u : String) (hu : u ≠ "auto")
    (hv : invalidFor s u = true) :
    makeMove s u = (s, false) ∧
    routeMakeMove s u = (ApiResult.err "Invalid move", s) := by
  have hm : makeMove s u = (s, false) := by
    unfold makeMove
    split
    · rfl
    next m heq =>
      have hv2 : decide (m ∉ legalMoves s.bstate.cur) = true := by
        have hv3 := hv
        unfold invalidFor at hv3
        rw [heq] at hv3
        exact hv3
      rw [if_neg (of_decide_eq_true hv2)]
  refine ⟨hm, ?_⟩
  unfold routeMakeMove
  rw [if_neg hu]
  by_cases he : u = ""
  · rw [if_pos he]
  · rw [if_neg he, hm]
    rfl

/-- C7 (witness): "e2e5" parses but is illegal in the starting position;
the session is returned unchanged with a rejection. -/
theorem invalidMoveRejected_witness :
    makeMove mkSession "e2e5" = (mkSession, false) ∧
    routeMakeMove mkSession "e2e5" = (ApiResult.err "Invalid move", mkSession) :=
  invalidMoveRejected mkSession "e2e5" (by decide) (by decide)

/-- C8: applying a legal move whose resulting position is terminal sets the
terminal flag and fixes the outcome exactly as `_check_game_over` does:
winner = the color NOT to move after the move with reason "Checkmate" on
checkmate, otherwise winner "Draw" with reason "Stalemate", "Insufficient
material", or the generic "Game ended". -/
theorem legalMoveSetsOutcome (s : Session) (u : String) (m : Move)
    (hp : Move.fromUci u = some m)
    (hl : m ∈ legalMoves s.bstate.cur)
    (hg : isGameOver (applyMove s.bstate.cur m) = true) :
    (makeMove s u).2 = true ∧
    (makeMove s u).1.gameOver = true ∧
    (isCheckmate (applyMove s.bstate.cur m) = true →
      (makeMove s u).1.winner =
        some (if (applyMove s.bstate.cur m).turn then "Black" else "White") ∧
      (makeMove s u).1.reason = some "Checkmate") ∧
    (isCheckmate (applyMove s.bstate.cur m) = false →
      isStalemate (applyMove s.bstate.cur m) = true →
      (makeMove s u).1.winner = some "Draw" ∧
      (makeMove s u).1.reason = some "Stalemate") ∧
    (isCheckmate (applyMove s.bstate.cur m) = false →
      isStalemate (applyMove s.bstate.cur m) = false →
      isInsufficientMaterial (applyMove s.bstate.cur m) = true →
      (makeMove s u).1.winner = some "Draw" ∧
      (makeMove s u).1.reason = some "Insufficient material") ∧
    (isCheckmate (applyMove s.bstate.cur m) = false →
      isStalemate (applyMove s.bstate.cur m) = false →
      isInsufficientMaterial (applyMove s.bstate.cur m) = false →
      (makeMove s u).1.winner = some "Draw" ∧
      (makeMove s u).1.reason = some "Game ended") := by
  have hmk : makeMove s u =
      (checkGameOver { s with bstate := s.bstate.push m, moveCount := s.moveCount + 1 }, true) := by
    unfold makeMove
    split
    next heq =>
      rw [hp] at heq
      simp at heq
    next m2 heq =>
      rw [hp] at heq
      obtain rfl : m2 = m := by injection heq with h2; exact h2.symm
      rw [if_pos hl]
  obtain ⟨g1, g2, g3, g4, g5⟩ :=
    checkGameOver_spec { s with bstate := s.bstate.push m, moveCount := s.moveCount + 1 } hg
  rw [hmk]
  exact ⟨rfl, g1, g2, g3, g4, g5⟩

/-- C8 (witness): the fool's-mate scenario — in the position after
1.f3 e5 2.g4, the reply d8h4 is legal, and applying it yields
terminal = true, winner = Black, reason = Checkmate. -/
theorem legalMoveSetsOutcome_witness :
    (⟨59, 31, none⟩ : Move) ∈ legalMoves fm3.bstate.cur ∧
    (makeMove fm3 "d8h4").2 = true ∧
    (makeMove fm3 "d8h4").1.gameOver = true ∧
    (makeMove fm3 "d8h4").1.winner = some "Black" ∧
    (makeMove fm3 "d8h4").1.reason = some "Checkmate" := by
  have hl : (⟨59, 31, none⟩ : Move) ∈ legalMoves fm3.bstate.cur := by
    rw [fm3_eq]
    decide
  obtain ⟨h2, h3, h4, -⟩ := legalMoveSetsOutcome fm3 "d8h4" ⟨59, 31, none⟩ (by decide) hl
    (by rw [fm3_eq]; decide)
  obtain ⟨hw, hr⟩ := h4 (by rw [fm3_eq]; decide)
  have ht : (applyMove fm3.bstate.cur ⟨59, 31, none⟩).turn = true := by
    rw [fm3_eq]
    decide
  rw [ht] at hw
  exact ⟨hl, h2, h3, hw, hr⟩

/-- C9: the fallback search restores the Position it mutates: both
`_minimax_move` and `_minimax` return the board state exactly as they found
it — every `push` is matched by a `pop` on every control path, including
the early alpha-beta `break` (which runs after the `pop` of its iteration)
— and the evaluator (`evaluatePosition : Board → Int`) is a pure query that
cannot mutate the board. -/
theorem searchRestoresBoard (d : Nat) (a c : XScore) (mx : Bool) (bs : BState) :
    (minimaxMove bs d).2 = bs ∧ (minimax d a c mx bs).2 = bs :=
  ⟨minimaxMove_state bs d, minimax_state d a c mx bs⟩

/-- C10: whenever `request_hint` is called with `hints_used` strictly below
`max_hints`, the counter is incremented by exactly 1 regardless of whether
a suggestion is produced; when the position has no legal moves the
suggestion is None and the route reports the failure through the same
"no hints remaining" rejection, quoting the already-incremented counter. -/
theorem hintCounterAlwaysIncrements (s : Session) (hb : s.hintsUsed < s.maxHints) :
    (getHint s).1.hintsUsed = s.hintsUsed + 1 ∧
    (legalMoves s.bstate.cur = [] →
      (getHint s).2 = none ∧
      routeGetHint s = (HintResult.errHint (s.hintsUsed + 1) s.maxHints,
        { s with hintsUsed := s.hintsUsed + 1 })) := by
  constructor
  · rw [getHint_budget s hb]
  · intro h
    constructor
    · rw [getHint_budget s hb, minimaxMove_nil s.bstate 2 h]
      rfl
    · unfold routeGetHint
      rw [getHint_budget s hb, minimaxMove_nil s.bstate 2 h]
      rfl

/-- C10 (witness): on the terminal fool's-mate session (no legal moves,
0 of 5 hints used) the hint budget is consumed and the route reports the
failure as exhaustion at 1/5. -/
theorem hintCounterAlwaysIncrements_witness :
    (getHint fmFinal).1.hintsUsed = fmFinal.hintsUsed + 1 ∧
    (getHint fmFinal).2 = none ∧
    routeGetHint fmFinal = (HintResult.errHint (fmFinal.hintsUsed + 1) fmFinal.maxHints,
      { fmFinal with hintsUsed := fmFinal.hintsUsed + 1 }) := by
  have h := hintCounterAlwaysIncrements fmFinal (by rw [fmFinal_eq]; decide)
  have h2 := h.2 (by rw [fmFinal_eq]; decide)
  exact ⟨h.1, h2.1, h2.2⟩

end ChessBot
